import Mathlib

/-
Verification development for the bccc sidebar (src/bccc/ui/sidebar.py).

The file shallowly embeds the two classes of the source:

* `ChannelBox` — the per-channel widget state: jid, active flag, unread id
  set, most-recent-activity timestamp, the notification badge text, the
  status line and the four config fields, together with its pubsub
  callbacks (`pubsub_posts_callback`, `pubsub_retract_callback`,
  `pubsub_status_callback`, `set_config`), `set_active`, and the adaptive
  header-row layout computed by `render`.

* `ChannelsList` — the registry: the ordered widget list (ChannelBoxes plus
  the divider), the focus position, the active-channel reference and the
  log of messages pushed to the status collaborator, together with
  `load_channels`, `sort_channels`, `make_active` and `reset`.

Modelling conventions: timestamps and post ids are naturals (the epoch
sentinel `datetime.fromtimestamp(0)` becomes `0`); Python object identity
is modelled by a `wid : Nat` field on every widget (Python `list.index`
compares by identity for these widgets since they define no `__eq__`);
exceptions are modelled by `Option`/`Except` results, where an `Except`
error carries the state left behind by the in-place mutations already
performed when the exception escaped.  The urwid collaborator behaviour
relied on by the source is modelled where the source calls it:
`SimpleListWalker.get_focus` yields the widget at the focus position and
`(None, None)` on an empty list, and `list.index` on a missing element
raises `ValueError` (modelled as `none`).
-/

namespace Sidebar

/-- A pubsub atom as delivered to the posts callback: a published timestamp
and an item id. -/
structure Atom where
  published : Nat
  id : Nat
  deriving Repr, DecidableEq

/-- The sentinel `datetime.datetime.fromtimestamp(0)` used by ChannelBox as
"never posted". -/
def oldest_date : Nat := 0

/-- The mutable state of a `ChannelBox` widget (sidebar.py lines 22-73):
channel identity, active flag, unread id set, most recent activity
timestamp, the text of the notification badge sub-widget, the status line
sub-widget text and the four channel-configuration fields. -/
structure ChannelBox where
  jid : String
  active : Bool
  unread_ids : Finset Nat
  most_recent_activity : Nat
  notif_text : String
  status_text : String
  chan_title : String
  chan_description : String
  chan_creation : String
  chan_type : String
  deriving DecidableEq

/-- The field initialisation performed by `ChannelBox.__init__` for a fresh
channel: inactive, empty unread set, `most_recent_activity` at the epoch
sentinel, all texts empty. -/
def mkChannelBoxState (jid : String) : ChannelBox :=
  { jid := jid, active := false, unread_ids := ∅,
    most_recent_activity := oldest_date, notif_text := "", status_text := "",
    chan_title := "", chan_description := "", chan_creation := "",
    chan_type := "" }

/-- One iteration of the scan loop at the top of `pubsub_posts_callback`
(lines 78-84): raise `most_recent_activity` and set the `recent_changed`
flag when the atom is published later than the current maximum. -/
def posts_scan_step (p : ChannelBox × Bool) (atom : Atom) : ChannelBox × Bool :=
  if atom.published > p.1.most_recent_activity then
    ({ p.1 with most_recent_activity := atom.published }, true)
  else p

/-- The scan loop as a fold, starting from the current box with the
`recent_changed` flag down. -/
def posts_scan (b : ChannelBox) (atoms : List Atom) : ChannelBox × Bool :=
  atoms.foldl posts_scan_step (b, false)

/-- `ChannelBox.pubsub_posts_callback` (lines 76-103), restricted to its
effect on the box itself; the second component is the `recent_changed` flag
that decides whether the registry resorts (the sort itself is applied at
the registry level, see `applyEvent`).  `first_post_ever` is computed from
`most_recent_activity` before the scan loop runs, exactly as in the source.
If the box is active the atoms go to the reading pane (an external
collaborator) and the unread set is untouched; otherwise, unless this is
the very first fetch, every atom id is added to `unread_ids` and the badge
text is rewritten to the new count. -/
def pubsub_posts_callback (b : ChannelBox) (atoms : List Atom) :
    ChannelBox × Bool :=
  let first_post_ever := b.most_recent_activity = oldest_date
  let p := posts_scan b atoms
  let b1 := p.1
  let b2 : ChannelBox :=
    if b1.active then b1
    else if first_post_ever then b1
    else
      let b' := { b1 with
        unread_ids := atoms.foldl (fun (s : Finset Nat) a => insert a.id s) b1.unread_ids }
      let nb_unread : Nat := b'.unread_ids.card
      if nb_unread > 0 then
        { b' with notif_text := " [" ++ toString nb_unread ++ "]" }
      else b'
  (b2, p.2)

/-- `ChannelBox.pubsub_retract_callback` (lines 105-111), restricted to its
effect on the box: discard every retracted id from `unread_ids`.  The badge
text is not touched; the unconditional registry resort is applied at the
registry level (see `applyEvent`). -/
def pubsub_retract_callback (b : ChannelBox) (item_ids : List Nat) :
    ChannelBox :=
  { b with unread_ids := item_ids.foldl (fun (s : Finset Nat) i => s.erase i) b.unread_ids }

/-- `ChannelBox.pubsub_status_callback` (lines 113-116): overwrite the
status line text. -/
def pubsub_status_callback (b : ChannelBox) (content : String) : ChannelBox :=
  { b with status_text := content }

/-- `ChannelBox.set_active` (lines 123-147), restricted to state (the eight
`set_attr_map`/`set_focus_map` calls swap style names only): activation
empties the badge text and clears the unread set; deactivation only resets
the flag. -/
def set_active (b : ChannelBox) (active : Bool) : ChannelBox :=
  if active then
    { b with active := true, notif_text := "", unread_ids := ∅ }
  else
    { b with active := false }

/-- A partial channel-configuration event: each key may be absent.  The
creation value is the raw timestamp handed to `strftime`. -/
structure Config where
  title : Option String
  description : Option String
  creation : Option Nat
  type : Option String
  deriving Repr, DecidableEq

/-- `ChannelBox.set_config` (lines 158-168): merge only the keys present in
the event, stripping whitespace from `title` and `description`, formatting
`creation` through the locale `strftime` pattern, and copying `type`
verbatim.  The locale formatting function is a parameter `fmt` since its
output depends on the process locale. -/
def set_config (fmt : Nat → String) (b : ChannelBox) (c : Config) :
    ChannelBox :=
  let b1 := match c.title with
    | some t => { b with chan_title := t.trim }
    | none => b
  let b2 := match c.description with
    | some d => { b1 with chan_description := d.trim }
    | none => b1
  let b3 := match c.creation with
    | some cr => { b2 with chan_creation := fmt cr }
    | none => b2
  match c.type with
  | some ty => { b3 with chan_type := ty }
  | none => b3

/-- The three segment kinds of the header line. -/
inductive Seg where
  | user
  | domain
  | notif
  deriving Repr, DecidableEq

/-- The header-line packing of `ChannelBox.render` (lines 177-219),
returning the left-to-right list of (segment, column width) pairs.
Inputs: the available width `maxcol`, the natural (packed) widths of the
user and notif texts, and the unread count the source branches on
(`len(self.unread_ids)`).  Widths are integers because the Python
subtractions can go negative. -/
def render_header (maxcol user_nat notif_nat : Int) (nb_unread : Nat) :
    List (Seg × Int) :=
  let user_col := user_nat
  if nb_unread = 0 then
    let domain_col := maxcol - user_col
    if domain_col > 0 then
      [(Seg.user, user_col), (Seg.domain, domain_col)]
    else
      [(Seg.user, maxcol)]
  else
    let notif_col := notif_nat
    let domain_col := maxcol - user_col - notif_col
    if domain_col > 0 then
      [(Seg.user, user_col), (Seg.domain, domain_col), (Seg.notif, notif_col)]
    else
      let user_col2 := min user_col (maxcol - notif_col)
      if user_col2 > 0 then
        [(Seg.user, user_col2), (Seg.notif, notif_col)]
      else
        [(Seg.notif, maxcol)]

/-- The packing ladder exactly as worded by spec section 4.2: step 2 for
the no-unread case (domain gets `Dw = W - Uw`, else user alone across the
full `W`), step 3 for the unread case (three segments when
`Dw = W - Uw - Nw` is positive, else user shrunk to `min(Uw, W - Nw)` with
notif, else notif alone).  Written from the specification text, to be
compared with `render_header`, which is written from the source. -/
def spec_header_layout (W Uw Nw : Int) (unread_count : Nat) :
    List (Seg × Int) :=
  if unread_count = 0 then
    let Dw := W - Uw
    if Dw > 0 then
      [(Seg.user, Uw), (Seg.domain, Dw)]
    else
      [(Seg.user, W)]
  else
    let Dw := W - Uw - Nw
    if Dw > 0 then
      [(Seg.user, Uw), (Seg.domain, Dw), (Seg.notif, Nw)]
    else
      let shrunk := min Uw (W - Nw)
      if shrunk > 0 then
        [(Seg.user, shrunk), (Seg.notif, Nw)]
      else
        [(Seg.notif, W)]

/-- Local part of a jid, as computed by `channel.jid.split("@", 1)`. -/
def userPart (jid : String) : String :=
  (jid.splitOn "@").headD ""

/-- Domain part of a jid: everything after the first at sign. -/
def domainPart (jid : String) : String :=
  String.intercalate "@" (jid.splitOn "@").tail

/-- The domain abbreviation of `ChannelBox.__init__` line 33: the first
letter of each dot-separated label (labels are non-empty in any valid
domain; an empty label is skipped where Python would raise). -/
def domainAbbrev (domain : String) : String :=
  String.mk ((domain.splitOn ".").filterMap (fun w => w.toList.head?))

/-- The header line of `ChannelBox.render` at the box level: each segment
kind resolved to the text the corresponding sub-widget holds, with the
natural widths given by the packed text lengths.  A pair `(text, w)` is a
canvas of width `w` holding `text` clipped or padded to `w` columns. -/
def render_box_header (b : ChannelBox) (maxcol : Int) : List (String × Int) :=
  let user := userPart b.jid
  let domain := "@" ++ domainAbbrev (domainPart b.jid)
  (render_header maxcol (user.length : Int) (b.notif_text.length : Int)
      b.unread_ids.card).map
    (fun s => match s.1 with
      | Seg.user => (user, s.2)
      | Seg.domain => (domain, s.2)
      | Seg.notif => (b.notif_text, s.2))

/-- Row content: a `ChannelBox` or the divider inserted at position 1 by
`load_channels`. -/
inductive WContent where
  | chan (box : ChannelBox)
  | divider
  deriving DecidableEq

/-- A widget held by the registry list.  `wid` models Python object
identity: the source relies on `list.index` finding a widget by identity
(these widgets define no custom equality). -/
structure Widget where
  wid : Nat
  content : WContent
  deriving DecidableEq

/-- The sort key of `sort_channels`: `cb.most_recent_activity`.  The source
reads the attribute only from ChannelBoxes; a divider never sits at a
position greater than 1 in any reachable state, so its key is irrelevant
(Python would raise there). -/
def sortKey (w : Widget) : Nat :=
  match w.content with
  | WContent.chan b => b.most_recent_activity
  | WContent.divider => 0

/-- `ChannelsList` state (lines 230-241): the widget list held by the
SimpleListWalker, the walker focus position, the `active_channel`
reference (by identity) and the log of texts pushed to the status
collaborator (`ui.status.set_text`). -/
structure ChannelsList where
  channels : List Widget
  focus : Nat
  active_channel : Option Nat
  statusLog : List String
  deriving DecidableEq

/-- Look up the ChannelBox with a given identity in the list. -/
def findBox (cl : ChannelsList) (wid : Nat) : Option ChannelBox :=
  cl.channels.findSome?
    (fun w => match w.content with
      | WContent.chan b => if w.wid = wid then some b else none
      | WContent.divider => none)

/-- In-place mutation of the ChannelBox object with identity `wid`: every
list cell holding that object now shows the updated state. -/
def setBoxAt (cl : ChannelsList) (wid : Nat) (b : ChannelBox) :
    ChannelsList :=
  { cl with
    channels := cl.channels.map
      (fun w => match w.content with
        | WContent.chan _ =>
          if w.wid = wid then { w with content := WContent.chan b } else w
        | WContent.divider => w) }

/-- Python `list.index` by object identity: the first position holding the
widget with identity `wid`; `none` models the `ValueError` raised when the
element is absent. -/
def idxOfWid (l : List Widget) (wid : Nat) : Option Nat :=
  l.findIdx? (fun w => w.wid = wid)

/-- The comparison realised by `sortable_chans.sort(key=..., reverse=True)`:
`a` may stay before `b` iff the key of `a` is at least the key of `b`;
Python sort is stable, as is `List.mergeSort`. -/
def chanLE (a b : Widget) : Bool :=
  decide (sortKey b ≤ sortKey a)

/-- `ChannelsList.sort_channels` (lines 274-281): remember the focused
widget (`get_focus` yields the widget at the focus position, or None on an
empty list), stably sort positions 2 and beyond by descending
`most_recent_activity`, then restore focus to the remembered widget by an
identity `list.index` lookup.  `none` models the `ValueError` escaping
when the lookup target is None (empty list) or absent. -/
def sort_channels (cl : ChannelsList) : Option ChannelsList :=
  match cl.channels[cl.focus]? with
  | none => none
  | some focus_w =>
    let sortable_chans := (cl.channels.drop 2).mergeSort chanLE
    let newChannels := cl.channels.take 2 ++ sortable_chans
    match idxOfWid newChannels focus_w.wid with
    | none => none
    | some focus_pos =>
      some { cl with channels := newChannels, focus := focus_pos }

/-- The jid read by the status message of `make_active`. -/
def jidOfWid (cl : ChannelsList) (wid : Nat) : String :=
  ((findBox cl wid).map ChannelBox.jid).getD ""

/-- `ChannelsList.make_active` (lines 296-304): a no-op when the target is
already the active channel (identity comparison); otherwise push the
"Displaying channel" status text, deactivate the previous active widget
(wherever it still sits in the list), record the new reference and
activate the target.  The reading-pane hand-off is external. -/
def make_active (cl : ChannelsList) (wid : Nat) : ChannelsList :=
  if cl.active_channel = some wid then cl
  else
    { cl with
      statusLog := cl.statusLog ++
        ["Displaying channel " ++ jidOfWid cl wid ++ "..."],
      channels := cl.channels.map
        (fun w => match w.content with
          | WContent.chan b =>
            if w.wid = wid then
              { w with content := WContent.chan (set_active b true) }
            else if cl.active_channel = some w.wid then
              { w with content := WContent.chan (set_active b false) }
            else w
          | WContent.divider => w),
      active_channel := some wid }

/-- One subscription as handed to the load loop: the channel jid, the
identity the freshly constructed ChannelBox object will have, and whether
the construction succeeds (`ChannelBox.__init__` issues pubsub requests
that may raise ChannelError). -/
structure SubChan where
  jid : String
  wid : Nat
  constructOk : Bool
  deriving DecidableEq

/-- The widget built by a successful `ChannelBox(self.ui, chan)`. -/
def mkChannelBox (s : SubChan) : Widget :=
  { wid := s.wid, content := WContent.chan (mkChannelBoxState s.jid) }

/-- Python `list.insert(i, a)`: insert before position `i`, clamping an
out-of-range index to the end. -/
def pyInsert (l : List Widget) (i : Nat) (a : Widget) : List Widget :=
  l.take i ++ a :: l.drop i

/-- One iteration of the `load_channels` loop (lines 261-267): construct
the ChannelBox (propagating a construction failure together with the list
state it leaves behind), then insert the self channel at position 0 and
make it active, or append any other channel. -/
def loadStep (boundjid : String) (cl : ChannelsList) (s : SubChan) :
    Except ChannelsList ChannelsList :=
  if s.constructOk = false then Except.error cl
  else
    let w := mkChannelBox s
    if s.jid = boundjid then
      let cl' := { cl with channels := w :: cl.channels }
      Except.ok (make_active cl' s.wid)
    else
      Except.ok { cl with channels := cl.channels ++ [w] }

/-- `ChannelsList.load_channels` (lines 250-272).  `ownOk` and `subsOk`
are the outcomes of the two collaborator fetches (`get_channel` and
`get_subscriptions`), issued before the list is cleared; `subs` is the
fetched subscription sequence.  There is no try/except in this method: a
ChannelError raised by either fetch or by a ChannelBox construction
escapes, and the `Except.error` carries the list state at that moment
(unchanged for the two fetches, cleared and partially refilled for a
construction failure).  On success the list is cleared, each channel is
added (self first, others in arrival order), and the divider is inserted
at position 1. -/
def load_channels (cl : ChannelsList) (boundjid : String)
    (ownOk subsOk : Bool) (subs : List SubChan) (dividerWid : Nat) :
    Except ChannelsList ChannelsList :=
  if ownOk = false then Except.error cl
  else if subsOk = false then Except.error cl
  else
    match subs.foldlM (loadStep boundjid) { cl with channels := [], focus := 0 } with
    | Except.error st => Except.error st
    | Except.ok cl1 =>
      Except.ok { cl1 with
        channels := pyInsert cl1.channels 1
          { wid := dividerWid, content := WContent.divider } }

/-- `ChannelsList.reset` (lines 283-294): look up the active channel
widget by identity (the outer `none` models an exception escaping the
method when there is no active channel or it is not in the list — those
lookups sit outside the try block, and they raise before any mutation);
then force-fetch a fresh channel.  On fetch failure (`fetched = none`,
the caught ChannelError) return with the state untouched — the warning
display is an unimplemented TODO.  After a successful fetch,
`ChannelBox(self.ui, new_chan)` is constructed *outside* the try block:
a ChannelError raised there (`constructOk = false`) escapes uncaught,
again before any mutation, so it is also `none`.  Only when the
construction succeeds is the old widget replaced at its position by the
freshly constructed ChannelBox and made active. -/
def reset (cl : ChannelsList) (fetched : Option SubChan) :
    Option ChannelsList :=
  match cl.active_channel with
  | none => none
  | some wid =>
    match idxOfWid cl.channels wid with
    | none => none
    | some idx =>
      match fetched with
      | none => some cl
      | some s =>
        if s.constructOk = false then none
        else
          let new_chan_box := mkChannelBox s
          let cl' := { cl with channels := cl.channels.set idx new_chan_box }
          some (make_active cl' s.wid)

/-- A feed event delivered to the callbacks of the ChannelBox with
identity `wid`. -/
inductive Event where
  | post (wid : Nat) (atoms : List Atom)
  | retract (wid : Nat) (item_ids : List Nat)

/-- Registry-level effect of delivering one feed event to a ChannelBox
currently in the list: apply the box callback, then resort exactly when
the source does (`pubsub_posts_callback` resorts iff `recent_changed`;
`pubsub_retract_callback` always resorts).  The source interleaves the
resort before the unread-set update of the posts callback, but the resort
reads only `most_recent_activity` (already updated) and the unread update
reads nothing the resort writes, so the combined state is identical. -/
def applyEvent (cl : ChannelsList) : Event → Option ChannelsList
  | Event.post wid atoms =>
    match findBox cl wid with
    | none => none
    | some b =>
      let p := pubsub_posts_callback b atoms
      let cl' := setBoxAt cl wid p.1
      if p.2 then sort_channels cl' else some cl'
  | Event.retract wid item_ids =>
    match findBox cl wid with
    | none => none
    | some b =>
      sort_channels (setBoxAt cl wid (pubsub_retract_callback b item_ids))

/-- Registry states reachable from `init` by feed events. -/
inductive Reachable (init : ChannelsList) : ChannelsList → Prop where
  | refl : Reachable init init
  | step {cl cl' : ChannelsList} (e : Event) :
      Reachable init cl → applyEvent cl e = some cl' → Reachable init cl'

/-! ### Lemmas about the ChannelBox callbacks -/

theorem foldl_scan_step_shape (atoms : List Atom) (p : ChannelBox × Bool) :
    ∃ m, (atoms.foldl posts_scan_step p).1
      = { p.1 with most_recent_activity := m } := by
  induction atoms generalizing p with
  | nil =>
    exact ⟨p.1.most_recent_activity, rfl⟩
  | cons a as ih =>
    rw [List.foldl_cons]
    obtain ⟨m, hm⟩ := ih (posts_scan_step p a)
    rw [hm]
    unfold posts_scan_step
    split <;> exact ⟨m, rfl⟩

theorem foldl_scan_step_flag (atoms : List Atom) (b : ChannelBox) :
    (atoms.foldl posts_scan_step (b, true)).2 = true := by
  induction atoms generalizing b with
  | nil => rfl
  | cons a as ih =>
    rw [List.foldl_cons]
    unfold posts_scan_step
    split
    · exact ih _
    · exact ih b

theorem posts_scan_of_flag_false {b : ChannelBox} {atoms : List Atom}
    (h : (posts_scan b atoms).2 = false) : (posts_scan b atoms).1 = b := by
  induction atoms generalizing b with
  | nil => rfl
  | cons a as ih =>
    have hdef : posts_scan b (a :: as)
        = as.foldl posts_scan_step (posts_scan_step (b, false) a) := by
      rw [posts_scan, List.foldl_cons]
    by_cases hgt : a.published > b.most_recent_activity
    · exfalso
      have hstep : posts_scan_step (b, false) a
          = ({ b with most_recent_activity := a.published }, true) := by
        rw [posts_scan_step, if_pos hgt]
      rw [hdef, hstep, foldl_scan_step_flag] at h
      exact Bool.noConfusion h
    · have hstep : posts_scan_step (b, false) a = (b, false) := by
        rw [posts_scan_step, if_neg hgt]
      rw [hdef, hstep] at h ⊢
      exact ih h

theorem posts_scan_shape (b : ChannelBox) (atoms : List Atom) :
    ∃ m, (posts_scan b atoms).1 = { b with most_recent_activity := m } :=
  foldl_scan_step_shape atoms (b, false)

/-- Sequentially adding the atom ids to the unread set is the union with
the id set. -/
theorem foldl_insert_ids (atoms : List Atom) (s0 : Finset Nat) :
    atoms.foldl (fun (s : Finset Nat) a => insert a.id s) s0
      = s0 ∪ (atoms.map Atom.id).toFinset := by
  induction atoms generalizing s0 with
  | nil => simp
  | cons a as ih =>
    rw [List.foldl_cons, ih]
    simp [Finset.insert_union, Finset.union_insert]

/-- The posts callback leaves the channel identity, the active flag and
the status line unchanged, its timestamp and flag are those of the scan
loop, and its unread set is the scan output set (which equals the input
set) possibly extended by the atom ids. -/
theorem pubsub_posts_callback_fields (b : ChannelBox) (atoms : List Atom) :
    (pubsub_posts_callback b atoms).1.jid = b.jid ∧
    (pubsub_posts_callback b atoms).1.active = b.active ∧
    (pubsub_posts_callback b atoms).1.most_recent_activity
      = (posts_scan b atoms).1.most_recent_activity ∧
    (pubsub_posts_callback b atoms).2 = (posts_scan b atoms).2 := by
  obtain ⟨m, hm⟩ := posts_scan_shape b atoms
  unfold pubsub_posts_callback
  rw [hm]
  refine ⟨?_, ?_, ?_, rfl⟩ <;>
    · simp only []
      split
      · simp [hm]
      · split
        · simp [hm]
        · split <;> simp [hm]

/-- C3: effect of a post event on the unread set.  If the channel is
inactive and its `most_recent_activity` was not the epoch sentinel before
the event, the unread set grows by exactly the ids of the new posts; if
the channel is active it is unchanged; and if `most_recent_activity`
equalled the epoch sentinel before the event (the load-time probe), it is
unchanged regardless of activity. -/
theorem C3_unread_accumulation (b : ChannelBox) (atoms : List Atom) :
    (b.active = false → b.most_recent_activity ≠ oldest_date →
      (pubsub_posts_callback b atoms).1.unread_ids
        = b.unread_ids ∪ (atoms.map Atom.id).toFinset) ∧
    (b.active = true →
      (pubsub_posts_callback b atoms).1.unread_ids = b.unread_ids) ∧
    (b.most_recent_activity = oldest_date →
      (pubsub_posts_callback b atoms).1.unread_ids = b.unread_ids) := by
  obtain ⟨m, hm⟩ := posts_scan_shape b atoms
  refine ⟨?_, ?_, ?_⟩
  · intro hact hfirst
    unfold pubsub_posts_callback
    simp only [hm, hact, foldl_insert_ids, if_neg hfirst, Bool.false_eq_true,
      if_false]
    split <;> rfl
  · intro hact
    unfold pubsub_posts_callback
    simp [hm, hact]
  · intro hfirst
    unfold pubsub_posts_callback
    simp only [hm, if_pos hfirst]
    split <;> rfl

/-- Closed instance of C3: a post of ids 1 and 2 to an inactive channel
with established recency accumulates exactly those ids. -/
theorem C3_unread_accumulation_witness :
    (pubsub_posts_callback
        { mkChannelBoxState "alice@example.com" with most_recent_activity := 5 }
        [⟨6, 1⟩, ⟨6, 2⟩]).1.unread_ids
      = (∅ : Finset Nat) ∪ ([1, 2] : List Nat).toFinset :=
  (C3_unread_accumulation
      { mkChannelBoxState "alice@example.com" with most_recent_activity := 5 }
      [⟨6, 1⟩, ⟨6, 2⟩]).1 rfl (by decide)

/-- C9: config partial merge.  Only the keys present in the event are
merged: `title` and `description` are whitespace-trimmed, `creation` is
formatted through the locale formatter, `type` is copied verbatim; every
absent field keeps its prior value.  In particular a config event carrying
only a title leaves description, creation and type unchanged. -/
theorem C9_config_partial_merge (fmt : Nat → String) (b : ChannelBox)
    (c : Config) :
    ((c.title = none → (set_config fmt b c).chan_title = b.chan_title) ∧
     (∀ t, c.title = some t → (set_config fmt b c).chan_title = t.trim)) ∧
    ((c.description = none →
        (set_config fmt b c).chan_description = b.chan_description) ∧
     (∀ d, c.description = some d →
        (set_config fmt b c).chan_description = d.trim)) ∧
    ((c.creation = none →
        (set_config fmt b c).chan_creation = b.chan_creation) ∧
     (∀ cr, c.creation = some cr →
        (set_config fmt b c).chan_creation = fmt cr)) ∧
    ((c.type = none → (set_config fmt b c).chan_type = b.chan_type) ∧
     (∀ ty, c.type = some ty → (set_config fmt b c).chan_type = ty)) ∧
    (∀ t, set_config fmt b
        { title := some t, description := none, creation := none, type := none }
        = { b with chan_title := t.trim }) := by
  obtain ⟨ot, od, ocr, oty⟩ := c
  cases ot <;> cases od <;> cases ocr <;> cases oty <;>
    simp [set_config]

/-- Closed instance of C9: a title-only config event trims the title and
leaves the other three config fields unchanged. -/
theorem C9_config_partial_merge_witness :
    (set_config toString (mkChannelBoxState "alice@example.com")
        { title := some " X ", description := none, creation := none,
          type := none }).chan_title = " X ".trim ∧
    (set_config toString (mkChannelBoxState "alice@example.com")
        { title := some " X ", description := none, creation := none,
          type := none }).chan_description
      = (mkChannelBoxState "alice@example.com").chan_description ∧
    (set_config toString (mkChannelBoxState "alice@example.com")
        { title := some " X ", description := none, creation := none,
          type := none }).chan_creation
      = (mkChannelBoxState "alice@example.com").chan_creation ∧
    (set_config toString (mkChannelBoxState "alice@example.com")
        { title := some " X ", description := none, creation := none,
          type := none }).chan_type
      = (mkChannelBoxState "alice@example.com").chan_type :=
  ⟨(C9_config_partial_merge toString (mkChannelBoxState "alice@example.com")
      _).1.2 " X " rfl,
   (C9_config_partial_merge toString (mkChannelBoxState "alice@example.com")
      _).2.1.1 rfl,
   (C9_config_partial_merge toString (mkChannelBoxState "alice@example.com")
      _).2.2.1.1 rfl,
   (C9_config_partial_merge toString (mkChannelBoxState "alice@example.com")
      _).2.2.2.1.1 rfl⟩

/-- C1: the header-row packing of `ChannelBox.render` follows exactly the
priority ladder worded in spec section 4.2 (for every width, natural user
and notif widths and unread count), and on the concrete spec example
(user width 5, notif width 5, W 8, unread present) it yields the user
segment clipped to 3 columns followed by the 5-column notif segment. -/
theorem C1_header_priority_ladder :
    (∀ (W Uw Nw : Int) (unread_count : Nat),
        render_header W Uw Nw unread_count
          = spec_header_layout W Uw Nw unread_count) ∧
    render_header 8 5 5 12 = [(Seg.user, 3), (Seg.notif, 5)] := by
  constructor
  · intro W Uw Nw n
    rfl
  · decide

/-- An inactive channel with established recency, used by the concrete
instances below. -/
def aliceBox : ChannelBox :=
  { mkChannelBoxState "alice@example.com" with most_recent_activity := 5 }

/-- `aliceBox` after a post event delivering ids 1 and 2 published at 6:
two unread ids and badge text " [2]". -/
def aliceAfterPost : ChannelBox :=
  (pubsub_posts_callback aliceBox [⟨6, 1⟩, ⟨6, 2⟩]).1

/-- `aliceAfterPost` after a retract event for id 1. -/
def aliceAfterRetract : ChannelBox :=
  pubsub_retract_callback aliceAfterPost [1]

/-- C10: a retract event never rewrites the badge text; the notif segment
is absent from the rendered header iff the unread set is empty, because
`render` branches on the set size, not on the stored text; when the unread
set is non-empty the rendered notif segment shows the stored text.  On the
concrete scenario: after posts 1 and 2 and a retract of 1, the unread set
has shrunk to one element but the badge still reads " [2]" (more than the
true size), and a later activation resets it to empty. -/
theorem C10_retract_keeps_badge_text :
    (∀ (b : ChannelBox) (ids : List Nat),
        (pubsub_retract_callback b ids).notif_text = b.notif_text) ∧
    (∀ (W Uw Nw : Int),
        Seg.notif ∉ (render_header W Uw Nw 0).map Prod.fst) ∧
    (∀ (W Uw Nw : Int) (n : Nat), n ≠ 0 →
        Seg.notif ∈ (render_header W Uw Nw n).map Prod.fst) ∧
    (∀ (b : ChannelBox) (W : Int), b.unread_ids.card ≠ 0 →
        ∃ wdt, (b.notif_text, wdt) ∈ render_box_header b W) ∧
    (aliceAfterRetract.notif_text = " [2]" ∧
     aliceAfterRetract.unread_ids = {2} ∧
     aliceAfterRetract.unread_ids.card = 1 ∧
     (set_active aliceAfterRetract true).notif_text = "") := by
  refine ⟨fun b ids => rfl, ?_, ?_, ?_, ?_⟩
  · intro W Uw Nw
    unfold render_header
    rw [if_pos rfl]
    dsimp only
    split <;> simp
  · intro W Uw Nw n hn
    unfold render_header
    rw [if_neg hn]
    dsimp only
    split
    · simp
    · split <;> simp
  · intro b W h
    have hmem : Seg.notif ∈ (render_header W
        ((userPart b.jid).length : Int) ((b.notif_text.length : Int))
        b.unread_ids.card).map Prod.fst := by
      unfold render_header
      rw [if_neg h]
      dsimp only
      split
      · simp
      · split <;> simp
    obtain ⟨s, hs, hfst⟩ := List.mem_map.mp hmem
    refine ⟨s.2, ?_⟩
    unfold render_box_header
    refine List.mem_map.mpr ⟨s, hs, ?_⟩
    obtain ⟨sg, wdt⟩ := s
    cases sg
    · exact absurd hfst (by simp)
    · exact absurd hfst (by simp)
    · rfl
  · refine ⟨by decide, by decide, by decide, by decide⟩

/-- Closed instance of C10: the retract of id 1 leaves the badge text of
the concrete two-unread channel unchanged, and with 12 unread the header
for width 8 carries a notif segment. -/
theorem C10_retract_keeps_badge_text_witness :
    (pubsub_retract_callback aliceAfterPost [1]).notif_text
      = aliceAfterPost.notif_text ∧
    Seg.notif ∈ (render_header 8 5 5 12).map Prod.fst :=
  ⟨C10_retract_keeps_badge_text.1 aliceAfterPost [1],
   C10_retract_keeps_badge_text.2.2.1 8 5 5 12 (by decide)⟩

/-! ### Lemmas about identity lookup and the resort -/

theorem idxOfWid_of_mem {l : List Widget} {w : Widget} (h : w ∈ l) :
    ∃ i w', idxOfWid l w.wid = some i ∧ l[i]? = some w' ∧ w'.wid = w.wid := by
  induction l with
  | nil => cases h
  | cons x xs ih =>
    by_cases hx : x.wid = w.wid
    · refine ⟨0, x, ?_, by simp, hx⟩
      simp [idxOfWid, List.findIdx?_cons, hx]
    · have hw : w ∈ xs := by
        rcases List.mem_cons.mp h with rfl | h'
        · exact absurd rfl hx
        · exact h'
      obtain ⟨i, w', hi, hw', hwid⟩ := ih hw
      refine ⟨i + 1, w', ?_, by simpa using hw', hwid⟩
      simp only [idxOfWid, List.findIdx?_cons] at hi ⊢
      simp [hx, hi]

theorem idxOfWid_nodup {l : List Widget} {w : Widget} (h : w ∈ l)
    (hn : (l.map Widget.wid).Nodup) :
    ∃ i, idxOfWid l w.wid = some i ∧ l[i]? = some w := by
  induction l with
  | nil => cases h
  | cons x xs ih =>
    rw [List.map_cons, List.nodup_cons] at hn
    rcases List.mem_cons.mp h with rfl | h'
    · exact ⟨0, by simp [idxOfWid, List.findIdx?_cons], by simp⟩
    · have hx : ¬ x.wid = w.wid := by
        intro he
        exact hn.1 (he ▸ List.mem_map_of_mem Widget.wid h')
      obtain ⟨i, hi, hw'⟩ := ih h' hn.2
      refine ⟨i + 1, ?_, by simpa using hw'⟩
      simp only [idxOfWid, List.findIdx?_cons] at hi ⊢
      simp [hx, hi]

theorem chanLE_trans (a b c : Widget) :
    chanLE a b → chanLE b c → chanLE a c := by
  simp only [chanLE, decide_eq_true_eq]
  omega

theorem chanLE_total (a b : Widget) : chanLE a b || chanLE b a := by
  simp only [chanLE]
  rcases Nat.le_total (sortKey b) (sortKey a) with h | h <;> simp [h]

/-- Successful resort: whenever `get_focus` finds a focused widget, the
resort returns a state whose list is the two pinned positions followed by
the stably sorted tail, a permutation of the previous list, with the
active reference and status log untouched and the focus back on a widget
of the same identity. -/
theorem sort_channels_spec {cl : ChannelsList} {w : Widget}
    (h : cl.channels[cl.focus]? = some w) :
    ∃ cl', sort_channels cl = some cl' ∧
      cl'.channels
        = cl.channels.take 2 ++ (cl.channels.drop 2).mergeSort chanLE ∧
      cl'.channels.Perm cl.channels ∧
      cl'.active_channel = cl.active_channel ∧
      cl'.statusLog = cl.statusLog ∧
      ∃ w', cl'.channels[cl'.focus]? = some w' ∧ w'.wid = w.wid := by
  have hperm : (cl.channels.take 2
      ++ (cl.channels.drop 2).mergeSort chanLE).Perm cl.channels := by
    have h2 := List.Perm.append_left (cl.channels.take 2)
      (List.mergeSort_perm (cl.channels.drop 2) chanLE)
    rw [List.take_append_drop] at h2
    exact h2
  have hmem : w ∈ cl.channels.take 2 ++ (cl.channels.drop 2).mergeSort chanLE :=
    hperm.mem_iff.mpr (List.getElem?_mem h)
  obtain ⟨i, w', hi, hw', hwid⟩ := idxOfWid_of_mem hmem
  refine ⟨{ cl with
      channels := cl.channels.take 2 ++ (cl.channels.drop 2).mergeSort chanLE,
      focus := i }, ?_, rfl, hperm, rfl, rfl, w', hw', hwid⟩
  unfold sort_channels
  rw [h]
  dsimp only
  rw [hi]

/-- Resort with pairwise distinct identities: the focus lands back on the
very widget that was focused before. -/
theorem sort_channels_focus_nodup {cl : ChannelsList} {w : Widget}
    (h : cl.channels[cl.focus]? = some w)
    (hn : (cl.channels.map Widget.wid).Nodup) :
    ∃ cl', sort_channels cl = some cl' ∧
      cl'.channels
        = cl.channels.take 2 ++ (cl.channels.drop 2).mergeSort chanLE ∧
      cl'.channels[cl'.focus]? = some w := by
  have hperm : (cl.channels.take 2
      ++ (cl.channels.drop 2).mergeSort chanLE).Perm cl.channels := by
    have h2 := List.Perm.append_left (cl.channels.take 2)
      (List.mergeSort_perm (cl.channels.drop 2) chanLE)
    rw [List.take_append_drop] at h2
    exact h2
  have hmem : w ∈ cl.channels.take 2 ++ (cl.channels.drop 2).mergeSort chanLE :=
    hperm.mem_iff.mpr (List.getElem?_mem h)
  have hn' : ((cl.channels.take 2
      ++ (cl.channels.drop 2).mergeSort chanLE).map Widget.wid).Nodup :=
    ((hperm.map Widget.wid).nodup_iff).mpr hn
  obtain ⟨i, hi, hw'⟩ := idxOfWid_nodup hmem hn'
  refine ⟨{ cl with
      channels := cl.channels.take 2 ++ (cl.channels.drop 2).mergeSort chanLE,
      focus := i }, ?_, rfl, hw'⟩
  unfold sort_channels
  rw [h]
  dsimp only
  rw [hi]

/-- The registry of a freshly started client: an empty list.  urwid's
`SimpleListWalker.get_focus` yields `(None, None)` on it. -/
def emptyChannelsList : ChannelsList :=
  { channels := [], focus := 0, active_channel := none, statusLog := [] }

/-- C5 counterexample: on an empty registry list `get_focus` yields None
and the focus-restoring `self._channels.index(focus_w)` raises ValueError,
so `sort_channels` fails rather than completing — the claim that resort
never fails, including on an empty list, is false on the code. -/
theorem C5_resort_counterexample : sort_channels emptyChannelsList = none :=
  rfl

/-- C5 (amended): whenever a focused row exists (urwid guarantees one on
every non-empty list, while on an empty list the focus lookup makes the
resort raise), `sort_channels` completes without raising and loses no
entry: the new list is a permutation — the same multiset — of the old. -/
theorem C5_resort_safe {cl : ChannelsList} {w : Widget}
    (h : cl.channels[cl.focus]? = some w) :
    ∃ cl', sort_channels cl = some cl' ∧ cl'.channels.Perm cl.channels := by
  obtain ⟨cl', hsort, _, hperm, _⟩ := sort_channels_spec h
  exact ⟨cl', hsort, hperm⟩

/-- A small three-row registry used as a concrete witness state: self
channel, divider, one further channel, focus on the last row. -/
def threeRowList : ChannelsList :=
  { channels :=
      [⟨1, WContent.chan (set_active (mkChannelBoxState "me@host") true)⟩,
       ⟨9, WContent.divider⟩,
       ⟨2, WContent.chan (mkChannelBoxState "bob@host")⟩],
    focus := 2, active_channel := some 1,
    statusLog := ["Displaying channel me@host..."] }

/-- Closed instance of C5: the resort of the concrete three-row registry
succeeds and permutes nothing away. -/
theorem C5_resort_safe_witness :
    ∃ cl', sort_channels threeRowList = some cl' ∧
      cl'.channels.Perm threeRowList.channels :=
  C5_resort_safe (w := ⟨2, WContent.chan (mkChannelBoxState "bob@host")⟩) rfl

/-- C8: when the focused row is a real ChannelState (and identities are
pairwise distinct, as Python object identities are), the resort puts the
focus back on the same ChannelState object even if its position moved. -/
theorem C8_focus_follows_identity {cl : ChannelsList} {w : Widget}
    (h : cl.channels[cl.focus]? = some w)
    (hchan : ∃ b, w.content = WContent.chan b)
    (hn : (cl.channels.map Widget.wid).Nodup) :
    ∃ cl', sort_channels cl = some cl' ∧
      cl'.channels[cl'.focus]? = some w := by
  obtain ⟨cl', hsort, _, hfocus⟩ := sort_channels_focus_nodup h hn
  exact ⟨cl', hsort, hfocus⟩

/-- Closed instance of C8: in the concrete three-row registry the focused
channel keeps the focus through a resort. -/
theorem C8_focus_follows_identity_witness :
    ∃ cl', sort_channels threeRowList = some cl' ∧
      cl'.channels[cl'.focus]?
        = some ⟨2, WContent.chan (mkChannelBoxState "bob@host")⟩ :=
  C8_focus_follows_identity rfl ⟨mkChannelBoxState "bob@host", rfl⟩
    (by decide)

/-! ### Activation exclusivity -/

/-- Whether a widget is an active ChannelBox. -/
def activeW (w : Widget) : Bool :=
  match w.content with
  | WContent.chan b => b.active
  | WContent.divider => false

/-- Invariant tying the active flags to the registry reference: every
active ChannelBox in the list is the one `active_channel` points to. -/
def ActiveInv (cl : ChannelsList) : Prop :=
  ∀ w ∈ cl.channels, ∀ b, w.content = WContent.chan b → b.active = true →
    cl.active_channel = some w.wid

theorem make_active_wids (cl : ChannelsList) (wid : Nat) :
    (make_active cl wid).channels.map Widget.wid
      = cl.channels.map Widget.wid := by
  unfold make_active
  split
  · rfl
  · dsimp only
    rw [List.map_map]
    apply List.map_congr_left
    intro w _
    obtain ⟨wd, c⟩ := w
    cases c
    · simp only [Function.comp_apply]
      split
      · rfl
      · split <;> rfl
    · rfl

theorem make_active_activeInv {cl : ChannelsList} (hInv : ActiveInv cl)
    (wid : Nat) : ActiveInv (make_active cl wid) := by
  unfold make_active
  split
  · exact hInv
  · intro w hw b hb hact
    simp only [List.mem_map] at hw
    obtain ⟨x, hx, rfl⟩ := hw
    obtain ⟨xw, xc⟩ := x
    cases xc with
    | divider => exact absurd hb (by simp)
    | chan xb =>
      by_cases h1 : xw = wid
      · simp only [h1, if_pos rfl] at hb ⊢
        exact congrArg some rfl
      · by_cases h2 : cl.active_channel = some xw
        · simp only [if_neg h1, if_pos h2] at hb hact ⊢
          obtain rfl : set_active xb false = b := by
            simpa using hb
          simp [set_active] at hact
        · simp only [if_neg h1, if_neg h2] at hb hact ⊢
          obtain rfl : xb = b := by simpa using hb
          exact absurd (hInv ⟨xw, WContent.chan xb⟩ hx xb rfl hact) h2

/-- Under the invariant, distinct identities bound the number of active
rows by one. -/
theorem activeInv_count {cl : ChannelsList} (hInv : ActiveInv cl)
    (hn : (cl.channels.map Widget.wid).Nodup) :
    (cl.channels.filter activeW).length ≤ 1 := by
  match hfil : cl.channels.filter activeW with
  | [] => simp
  | [_] => simp
  | v :: w :: rest =>
    exfalso
    have hsub : List.Sublist [v, w] cl.channels := by
      have h1 : List.Sublist [v, w] (v :: w :: rest) :=
        List.Sublist.cons₂ v (List.Sublist.cons₂ w (List.nil_sublist rest))
      exact h1.trans (hfil ▸ List.filter_sublist cl.channels)
    have hvmem : v ∈ cl.channels.filter activeW := by rw [hfil]; simp
    have hwmem : w ∈ cl.channels.filter activeW := by rw [hfil]; simp
    have hv := List.mem_filter.mp hvmem
    have hw := List.mem_filter.mp hwmem
    have hvwid : cl.active_channel = some v.wid := by
      obtain ⟨vw, vc⟩ := v
      cases vc with
      | divider => simp [activeW] at hv
      | chan vb => exact hInv _ hv.1 vb rfl (by simpa [activeW] using hv.2)
    have hwwid : cl.active_channel = some w.wid := by
      obtain ⟨ww, wc⟩ := w
      cases wc with
      | divider => simp [activeW] at hw
      | chan wb => exact hInv _ hw.1 wb rfl (by simpa [activeW] using hw.2)
    have heq : v.wid = w.wid := by
      have := hvwid.symm.trans hwwid
      exact Option.some.inj this
    have hsubm : List.Sublist [v.wid, w.wid] (cl.channels.map Widget.wid) :=
      hsub.map Widget.wid
    have := hn.sublist hsubm
    rw [heq] at this
    simp at this

theorem foldl_make_active_inv (calls : List Nat) {cl : ChannelsList}
    (hInv : ActiveInv cl) (hn : (cl.channels.map Widget.wid).Nodup) :
    ActiveInv (calls.foldl make_active cl) ∧
      ((calls.foldl make_active cl).channels.map Widget.wid).Nodup := by
  induction calls generalizing cl with
  | nil => exact ⟨hInv, hn⟩
  | cons a as ih =>
    exact ih (make_active_activeInv hInv a)
      (by rw [make_active_wids]; exact hn)

/-- C7: activation exclusivity.  Starting from a registry whose active
flags agree with the `active_channel` reference and whose identities are
pairwise distinct, any sequence of `make_active` calls leaves at most one
active ChannelBox in the list; a genuine activation gives the target the
active flag with its unread set cleared and its badge text emptied; and
activating the already-active channel is a no-op, the registry state being
identical before and after. -/
theorem C7_activation_exclusivity {cl : ChannelsList}
    (hInv : ActiveInv cl) (hn : (cl.channels.map Widget.wid).Nodup) :
    (∀ calls : List Nat,
        ((calls.foldl make_active cl).channels.filter activeW).length ≤ 1) ∧
    (∀ wid w b, w ∈ (make_active cl wid).channels → w.wid = wid →
        w.content = WContent.chan b → cl.active_channel ≠ some wid →
        b.active = true ∧ b.unread_ids = ∅ ∧ b.notif_text = "") ∧
    (∀ wid, cl.active_channel = some wid → make_active cl wid = cl) := by
  refine ⟨?_, ?_, ?_⟩
  · intro calls
    obtain ⟨hInv', hn'⟩ := foldl_make_active_inv calls hInv hn
    exact activeInv_count hInv' hn'
  · intro wid w b hw hwid hb hne
    unfold make_active at hw
    rw [if_neg hne] at hw
    simp only [List.mem_map] at hw
    obtain ⟨x, hx, rfl⟩ := hw
    obtain ⟨xw, xc⟩ := x
    cases xc with
    | divider => exact absurd hb (by simp)
    | chan xb =>
      have hxw : xw = wid := by
        by_cases h1 : xw = wid
        · exact h1
        · by_cases h2 : cl.active_channel = some xw <;> simp [h1, h2] at hwid
      subst hxw
      simp only [if_pos rfl] at hb
      obtain rfl : set_active xb true = b := by simpa using hb
      simp [set_active]
  · intro wid hwid
    unfold make_active
    rw [if_pos hwid]

/-- Closed instance of C7: in the concrete three-row registry, activating
another channel keeps at most one row active, and re-activating the
already-active self channel changes nothing. -/
theorem C7_activation_exclusivity_witness :
    ((([2] : List Nat).foldl make_active threeRowList).channels.filter
        activeW).length ≤ 1 ∧
    make_active threeRowList 1 = threeRowList := by
  have hInv : ActiveInv threeRowList := by
    intro w hw b hb hact
    simp only [threeRowList, List.mem_cons, List.not_mem_nil, or_false] at hw
    rcases hw with rfl | rfl | rfl
    · rfl
    · exact absurd hb (by simp)
    · exfalso
      obtain rfl : mkChannelBoxState "bob@host" = b := by simpa using hb
      simp [mkChannelBoxState] at hact
  have hn : (threeRowList.channels.map Widget.wid).Nodup := by decide
  exact ⟨(C7_activation_exclusivity hInv hn).1 [2],
    (C7_activation_exclusivity hInv hn).2.2 1 rfl⟩

/-! ### The ordering invariant over feed events -/

theorem nodup_wid_unique {l : List Widget}
    (hn : (l.map Widget.wid).Nodup) {v w : Widget}
    (hv : v ∈ l) (hw : w ∈ l) (hwid : v.wid = w.wid) : v = w :=
  List.inj_on_of_nodup_map hn hv hw hwid

theorem findBox_spec {cl : ChannelsList} {wid : Nat} {b : ChannelBox}
    (h : findBox cl wid = some b) :
    ∃ w, w ∈ cl.channels ∧ w.wid = wid ∧ w.content = WContent.chan b := by
  obtain ⟨a, ha, hfa⟩ := List.exists_of_findSome?_eq_some h
  obtain ⟨aw, ac⟩ := a
  cases ac with
  | divider => simp at hfa
  | chan ab =>
    by_cases hw : aw = wid
    · refine ⟨⟨aw, WContent.chan ab⟩, ha, hw, ?_⟩
      simp only [hw, if_pos rfl] at hfa
      obtain rfl := Option.some.inj hfa
      rfl
    · simp [hw] at hfa

theorem findBox_eq_of_mem {cl : ChannelsList} {wid : Nat} {b : ChannelBox}
    (hfind : findBox cl wid = some b)
    (hn : (cl.channels.map Widget.wid).Nodup)
    {w : Widget} (hw : w ∈ cl.channels) (hwid : w.wid = wid)
    {bw : ChannelBox} (hc : w.content = WContent.chan bw) : bw = b := by
  obtain ⟨w0, hw0, hwid0, hc0⟩ := findBox_spec hfind
  have heq : w = w0 := nodup_wid_unique hn hw hw0 (by rw [hwid, hwid0])
  rw [heq, hc0] at hc
  exact (WContent.chan.inj hc).symm

theorem setBoxAt_wids (cl : ChannelsList) (wid : Nat) (b : ChannelBox) :
    (setBoxAt cl wid b).channels.map Widget.wid
      = cl.channels.map Widget.wid := by
  unfold setBoxAt
  dsimp only
  rw [List.map_map]
  apply List.map_congr_left
  intro w _
  obtain ⟨wd, c⟩ := w
  cases c
  · simp only [Function.comp_apply]
    split <;> rfl
  · rfl

theorem setBoxAt_length (cl : ChannelsList) (wid : Nat) (b : ChannelBox) :
    (setBoxAt cl wid b).channels.length = cl.channels.length := by
  simp [setBoxAt]

theorem setBoxAt_head {cl : ChannelsList} {wid : Nat} {b bnew : ChannelBox}
    {selfWid : Nat} {boundjid : String} {b0 : ChannelBox}
    (h0 : cl.channels[0]? = some ⟨selfWid, WContent.chan b0⟩)
    (hj0 : b0.jid = boundjid)
    (hfind : findBox cl wid = some b)
    (hn : (cl.channels.map Widget.wid).Nodup)
    (hjid : bnew.jid = b.jid) :
    ∃ b1, (setBoxAt cl wid bnew).channels[0]?
        = some ⟨selfWid, WContent.chan b1⟩ ∧ b1.jid = boundjid := by
  have hch : (setBoxAt cl wid bnew).channels[0]?
      = (cl.channels[0]?).map (fun w =>
          match w.content with
          | WContent.chan _ =>
            if w.wid = wid then { w with content := WContent.chan bnew } else w
          | WContent.divider => w) := by
    unfold setBoxAt
    exact List.getElem?_map _ cl.channels 0
  rw [h0] at hch
  by_cases hsw : selfWid = wid
  · have hb0 : b0 = b :=
      findBox_eq_of_mem hfind hn (List.getElem?_mem h0) hsw rfl
    refine ⟨bnew, ?_, by rw [hjid, ← hb0, hj0]⟩
    rw [hch]
    simp [hsw]
  · refine ⟨b0, ?_, hj0⟩
    rw [hch]
    simp [hsw]

theorem setBoxAt_div {cl : ChannelsList} (wid : Nat) (bnew : ChannelBox)
    {dividerWid : Nat}
    (hdiv : cl.channels[1]? = some ⟨dividerWid, WContent.divider⟩) :
    (setBoxAt cl wid bnew).channels[1]?
      = some ⟨dividerWid, WContent.divider⟩ := by
  have hch : (setBoxAt cl wid bnew).channels[1]?
      = (cl.channels[1]?).map (fun w =>
          match w.content with
          | WContent.chan _ =>
            if w.wid = wid then { w with content := WContent.chan bnew } else w
          | WContent.divider => w) := by
    unfold setBoxAt
    exact List.getElem?_map _ cl.channels 1
  rw [hdiv] at hch
  rw [hch]
  rfl

/-- When the replacing box carries the same activity timestamp as the box
it replaces, the in-place mutation changes no sort key. -/
theorem setBoxAt_sortKey_map {cl : ChannelsList} {wid : Nat}
    {b : ChannelBox} (bnew : ChannelBox)
    (hfind : findBox cl wid = some b)
    (hn : (cl.channels.map Widget.wid).Nodup)
    (hmra : bnew.most_recent_activity = b.most_recent_activity) :
    (setBoxAt cl wid bnew).channels.map sortKey
      = cl.channels.map sortKey := by
  unfold setBoxAt
  dsimp only
  rw [List.map_map]
  apply List.map_congr_left
  intro w hw
  obtain ⟨wd, c⟩ := w
  cases c with
  | divider => rfl
  | chan wb =>
    simp only [Function.comp_apply]
    by_cases hwd : wd = wid
    · have hwb : wb = b := findBox_eq_of_mem hfind hn hw hwd rfl
      simp [hwd, sortKey, hmra, hwb]
    · simp [hwd]

/-- Pairwise sortedness of the tail depends only on the key sequence. -/
theorem tail_pairwise_of_keys_eq {l l' : List Widget}
    (hk : l'.map sortKey = l.map sortKey)
    (ht : (l.drop 2).Pairwise (fun a b => sortKey b ≤ sortKey a)) :
    (l'.drop 2).Pairwise (fun a b => sortKey b ≤ sortKey a) := by
  have hiff : ∀ (m : List Widget),
      ((m.drop 2).Pairwise (fun a b => sortKey b ≤ sortKey a)
        ↔ ((m.map sortKey).drop 2).Pairwise (fun x y => y ≤ x)) := by
    intro m
    rw [← List.map_drop, List.pairwise_map]
  rw [hiff] at ht ⊢
  rw [hk]
  exact ht

/-- The registry list invariant: the self channel (carrying the bound
jid) pinned at position 0, the divider at position 1, the tail sorted by
`most_recent_activity` descending, a valid focus and pairwise distinct
identities. -/
structure RegInv (selfWid dividerWid : Nat) (boundjid : String)
    (cl : ChannelsList) : Prop where
  head_self : ∃ b, cl.channels[0]? = some ⟨selfWid, WContent.chan b⟩ ∧
    b.jid = boundjid
  div_snd : cl.channels[1]? = some ⟨dividerWid, WContent.divider⟩
  tail_sorted : (cl.channels.drop 2).Pairwise
    (fun a b => sortKey b ≤ sortKey a)
  focus_lt : cl.focus < cl.channels.length
  wids_nodup : (cl.channels.map Widget.wid).Nodup

/-- A successful resort re-establishes the full invariant from its
non-ordering parts. -/
theorem sort_channels_regInv {selfWid dividerWid : Nat} {boundjid : String}
    {cl cl' : ChannelsList}
    (hhead : ∃ b, cl.channels[0]? = some ⟨selfWid, WContent.chan b⟩ ∧
      b.jid = boundjid)
    (hdiv : cl.channels[1]? = some ⟨dividerWid, WContent.divider⟩)
    (hfocus : cl.focus < cl.channels.length)
    (hn : (cl.channels.map Widget.wid).Nodup)
    (h : sort_channels cl = some cl') :
    RegInv selfWid dividerWid boundjid cl' := by
  have hfoc : cl.channels[cl.focus]? = some cl.channels[cl.focus] :=
    List.getElem?_eq_getElem hfocus
  obtain ⟨cl'', hs, hform, hperm, _, _, w', hw', _⟩ := sort_channels_spec hfoc
  rw [h] at hs
  obtain rfl := Option.some.inj hs
  obtain ⟨b0, h0, hj0⟩ := hhead
  match hshape : cl.channels with
  | [] => rw [hshape] at h0; cases h0
  | [x] => rw [hshape] at hdiv; cases hdiv
  | c0 :: c1 :: rest =>
    rw [hshape] at h0 hdiv
    simp only [List.getElem?_cons_zero, List.getElem?_cons_succ,
      Option.some.injEq] at h0 hdiv
    subst h0
    subst hdiv
    have hch : cl'.channels
        = ⟨selfWid, WContent.chan b0⟩ :: ⟨dividerWid, WContent.divider⟩
          :: rest.mergeSort chanLE := by
      rw [hform, hshape]
      rfl
    refine ⟨⟨b0, ?_, hj0⟩, ?_, ?_, ?_, ?_⟩
    · rw [hch]; simp
    · rw [hch]; simp
    · rw [hch]
      have hs : (rest.mergeSort chanLE).Pairwise (fun a b => chanLE a b) :=
        List.sorted_mergeSort
          (fun a b c => chanLE_trans a b c) (fun a b => chanLE_total a b) rest
      simp only [List.drop_succ_cons, List.drop_zero]
      exact hs.imp (fun hab => by
        simpa [chanLE, decide_eq_true_eq] using hab)
    · exact (List.getElem?_eq_some_iff.mp hw').1
    · exact ((hperm.map Widget.wid).nodup_iff).mpr hn

/-- Every feed event preserves the registry invariant: a retract always
resorts; a post resorts exactly when the maximum published timestamp
changed, and otherwise left every sort key unchanged. -/
theorem applyEvent_regInv {selfWid dividerWid : Nat} {boundjid : String}
    {cl cl' : ChannelsList} {e : Event}
    (hInv : RegInv selfWid dividerWid boundjid cl)
    (h : applyEvent cl e = some cl') :
    RegInv selfWid dividerWid boundjid cl' := by
  obtain ⟨⟨b0, h0, hj0⟩, hdiv, htail, hfoc, hn⟩ := hInv
  cases e with
  | post wid atoms =>
    simp only [applyEvent] at h
    cases hfind : findBox cl wid with
    | none => rw [hfind] at h; simp at h
    | some b =>
      rw [hfind] at h
      dsimp only at h
      obtain ⟨hjid, -, hmra, hflag⟩ := pubsub_posts_callback_fields b atoms
      have hhead' := setBoxAt_head h0 hj0 hfind hn hjid
      have hdiv' := setBoxAt_div wid (pubsub_posts_callback b atoms).1 hdiv
      have hfoc' : (setBoxAt cl wid (pubsub_posts_callback b atoms).1).focus
          < (setBoxAt cl wid (pubsub_posts_callback b atoms).1).channels.length := by
        rw [setBoxAt_length]
        exact hfoc
      have hn' := (setBoxAt_wids cl wid (pubsub_posts_callback b atoms).1) ▸ hn
      cases hp2 : (pubsub_posts_callback b atoms).2 with
      | true =>
        rw [hp2, if_pos rfl] at h
        exact sort_channels_regInv hhead' hdiv' hfoc' hn' h
      | false =>
        rw [hp2, if_neg (by simp)] at h
        obtain rfl := Option.some.inj h
        have hscan : (posts_scan b atoms).1 = b :=
          posts_scan_of_flag_false (hflag ▸ hp2)
        have hkeys := setBoxAt_sortKey_map (pubsub_posts_callback b atoms).1
          hfind hn (by rw [hmra, hscan])
        exact ⟨hhead', hdiv', tail_pairwise_of_keys_eq hkeys htail, hfoc', hn'⟩
  | retract wid item_ids =>
    simp only [applyEvent] at h
    cases hfind : findBox cl wid with
    | none => rw [hfind] at h; simp at h
    | some b =>
      rw [hfind] at h
      dsimp only at h
      have hhead' := setBoxAt_head h0 hj0 hfind hn
        (rfl : (pubsub_retract_callback b item_ids).jid = b.jid)
      have hdiv' := setBoxAt_div wid (pubsub_retract_callback b item_ids) hdiv
      have hfoc' : (setBoxAt cl wid (pubsub_retract_callback b item_ids)).focus
          < (setBoxAt cl wid (pubsub_retract_callback b item_ids)).channels.length := by
        rw [setBoxAt_length]
        exact hfoc
      have hn' := (setBoxAt_wids cl wid (pubsub_retract_callback b item_ids)) ▸ hn
      exact sort_channels_regInv hhead' hdiv' hfoc' hn' h

/-! ### The load loop in closed form -/

theorem set_active_false_mk (jid : String) :
    set_active (mkChannelBoxState jid) false = mkChannelBoxState jid := rfl

theorem sortKey_mkChannelBox (s : SubChan) : sortKey (mkChannelBox s) = 0 :=
  rfl

theorem loadStep_nonself {boundjid : String} {cl : ChannelsList}
    {s : SubChan} (hok : s.constructOk = true) (hjid : s.jid ≠ boundjid) :
    loadStep boundjid cl s
      = Except.ok { cl with channels := cl.channels ++ [mkChannelBox s] } := by
  unfold loadStep
  rw [if_neg (by simp [hok])]
  dsimp only
  rw [if_neg hjid]

theorem loadStep_self {boundjid : String} {cl : ChannelsList} {s : SubChan}
    (hok : s.constructOk = true) (hjid : s.jid = boundjid) :
    loadStep boundjid cl s
      = Except.ok (make_active
          { cl with channels := mkChannelBox s :: cl.channels } s.wid) := by
  unfold loadStep
  rw [if_neg (by simp [hok])]
  dsimp only
  rw [if_pos hjid]

theorem foldlM_loadStep_nonself {boundjid : String} (subs : List SubChan)
    (cl : ChannelsList)
    (hok : ∀ s ∈ subs, s.constructOk = true)
    (hjid : ∀ s ∈ subs, s.jid ≠ boundjid) :
    subs.foldlM (loadStep boundjid) cl
      = Except.ok
          { cl with channels := cl.channels ++ subs.map mkChannelBox } := by
  induction subs generalizing cl with
  | nil =>
    simp only [List.map_nil, List.append_nil, List.foldlM_nil]
    rfl
  | cons s ss ih =>
    rw [List.foldlM_cons,
      loadStep_nonself (hok s (by simp)) (hjid s (by simp))]
    have hbind : ((Except.ok
            { cl with channels := cl.channels ++ [mkChannelBox s] }
          : Except ChannelsList ChannelsList)
        >>= ss.foldlM (loadStep boundjid))
        = ss.foldlM (loadStep boundjid)
            { cl with channels := cl.channels ++ [mkChannelBox s] } := rfl
    rw [hbind, ih _ (fun x hx => hok x (by simp [hx]))
      (fun x hx => hjid x (by simp [hx]))]
    simp

/-- Activating the freshly inserted self channel at the head of a list of
freshly constructed boxes with distinct identities: the head becomes
active, the rest is untouched, and the displaying message is logged. -/
theorem make_active_cons_self {chs : List Widget} {fc : Nat}
    {act : Option Nat} {log : List String} {s : SubChan}
    (hfresh : act ≠ some s.wid)
    (hrest : ∀ w ∈ chs,
      ∃ s' : SubChan, w = mkChannelBox s' ∧ s'.wid ≠ s.wid) :
    make_active ⟨mkChannelBox s :: chs, fc, act, log⟩ s.wid
      = ⟨⟨s.wid, WContent.chan (set_active (mkChannelBoxState s.jid) true)⟩
            :: chs,
         fc, some s.wid,
         log ++ ["Displaying channel " ++ s.jid ++ "..."]⟩ := by
  unfold make_active
  rw [if_neg hfresh]
  dsimp only
  have hjid : jidOfWid ⟨mkChannelBox s :: chs, fc, act, log⟩ s.wid
      = s.jid := by
    simp [jidOfWid, findBox, mkChannelBox, mkChannelBoxState]
  have hmap : chs.map (fun w =>
      match w.content with
      | WContent.chan b =>
        if w.wid = s.wid then
          { w with content := WContent.chan (set_active b true) }
        else if act = some w.wid then
          { w with content := WContent.chan (set_active b false) }
        else w
      | WContent.divider => w) = chs := by
    conv_rhs => rw [← List.map_id chs]
    apply List.map_congr_left
    intro w hw
    obtain ⟨s', rfl, hne⟩ := hrest w hw
    simp [mkChannelBox, hne, set_active_false_mk]
  rw [List.map_cons, hmap, hjid]
  simp [mkChannelBox]

/-- Successful load with exactly one self channel somewhere in the
subscription list: the resulting registry state in closed form — self
channel activated at position 0, divider at 1, the other channels in
arrival order, focus at 0 and the displaying message logged. -/
theorem load_channels_ok_shape {cl0 : ChannelsList} {boundjid : String}
    {pre post : List SubChan} {selfSub : SubChan} {dividerWid : Nat}
    (hselfok : selfSub.constructOk = true)
    (hpreok : ∀ s ∈ pre, s.constructOk = true)
    (hpostok : ∀ s ∈ post, s.constructOk = true)
    (hselfjid : selfSub.jid = boundjid)
    (hpre : ∀ s ∈ pre, s.jid ≠ boundjid)
    (hpost : ∀ s ∈ post, s.jid ≠ boundjid)
    (hfresh : cl0.active_channel ≠ some selfSub.wid)
    (hwidpre : selfSub.wid ∉ pre.map SubChan.wid) :
    load_channels cl0 boundjid true true (pre ++ selfSub :: post) dividerWid
      = Except.ok
        { channels :=
            ⟨selfSub.wid,
              WContent.chan (set_active (mkChannelBoxState selfSub.jid) true)⟩
              :: ⟨dividerWid, WContent.divider⟩
              :: (pre.map mkChannelBox ++ post.map mkChannelBox),
          focus := 0,
          active_channel := some selfSub.wid,
          statusLog := cl0.statusLog
            ++ ["Displaying channel " ++ selfSub.jid ++ "..."] } := by
  have hrest : ∀ w ∈ pre.map mkChannelBox,
      ∃ s' : SubChan, w = mkChannelBox s' ∧ s'.wid ≠ selfSub.wid := by
    intro w hw
    simp only [List.mem_map] at hw
    obtain ⟨s', hs', rfl⟩ := hw
    exact ⟨s', rfl, fun he =>
      hwidpre (he ▸ List.mem_map_of_mem SubChan.wid hs')⟩
  have hbind1 : ∀ (x : ChannelsList) (g : ChannelsList →
      Except ChannelsList ChannelsList),
      (Except.ok x >>= g) = g x := fun x g => rfl
  unfold load_channels
  rw [if_neg (by simp), if_neg (by simp)]
  have hloop : (pre ++ selfSub :: post).foldlM (loadStep boundjid)
      { cl0 with channels := [], focus := 0 }
      = Except.ok
          { channels :=
              ⟨selfSub.wid,
                WContent.chan (set_active (mkChannelBoxState selfSub.jid) true)⟩
                :: (pre.map mkChannelBox ++ post.map mkChannelBox),
            focus := 0,
            active_channel := some selfSub.wid,
            statusLog := cl0.statusLog
              ++ ["Displaying channel " ++ selfSub.jid ++ "..."] } := by
    rw [List.foldlM_append]
    rw [foldlM_loadStep_nonself pre _ hpreok hpre]
    rw [hbind1]
    rw [List.foldlM_cons, loadStep_self hselfok hselfjid]
    rw [hbind1]
    dsimp only
    rw [List.nil_append]
    rw [make_active_cons_self hfresh hrest]
    rw [foldlM_loadStep_nonself post _ hpostok hpost]
    dsimp only
    rw [List.cons_append]
  rw [hloop]
  dsimp only
  simp [pyInsert]

/-- A successful well-formed load (exactly one subscription carrying the
bound jid, fresh pairwise distinct identities) establishes the registry
invariant. -/
theorem load_regInv {cl0 init : ChannelsList} {boundjid : String}
    {pre post : List SubChan} {selfSub : SubChan} {dividerWid : Nat}
    (hselfok : selfSub.constructOk = true)
    (hpreok : ∀ s ∈ pre, s.constructOk = true)
    (hpostok : ∀ s ∈ post, s.constructOk = true)
    (hselfjid : selfSub.jid = boundjid)
    (hpre : ∀ s ∈ pre, s.jid ≠ boundjid)
    (hpost : ∀ s ∈ post, s.jid ≠ boundjid)
    (hfresh : cl0.active_channel ≠ some selfSub.wid)
    (hnodup : ((pre ++ selfSub :: post).map SubChan.wid).Nodup)
    (hdivw : dividerWid ∉ (pre ++ selfSub :: post).map SubChan.wid)
    (hload : load_channels cl0 boundjid true true (pre ++ selfSub :: post)
        dividerWid = Except.ok init) :
    RegInv selfSub.wid dividerWid boundjid init := by
  rw [List.map_append, List.map_cons] at hnodup hdivw
  have hperm : (pre.map SubChan.wid ++ selfSub.wid :: post.map SubChan.wid).Perm
      (selfSub.wid :: (pre.map SubChan.wid ++ post.map SubChan.wid)) :=
    List.perm_middle
  have h2 : (selfSub.wid
      :: (pre.map SubChan.wid ++ post.map SubChan.wid)).Nodup :=
    hperm.nodup_iff.mp hnodup
  rw [List.nodup_cons] at h2
  have hwidpre : selfSub.wid ∉ pre.map SubChan.wid := fun hmem =>
    h2.1 (List.mem_append_left _ hmem)
  rw [load_channels_ok_shape hselfok hpreok hpostok hselfjid hpre hpost
    hfresh hwidpre] at hload
  obtain rfl := (Except.ok.inj hload)
  have hmapw : (pre.map mkChannelBox ++ post.map mkChannelBox).map Widget.wid
      = pre.map SubChan.wid ++ post.map SubChan.wid := by
    simp only [List.map_append, List.map_map]
    rfl
  refine ⟨⟨set_active (mkChannelBoxState selfSub.jid) true, by simp,
    by simp [set_active, mkChannelBoxState, hselfjid]⟩, by simp, ?_, by simp,
    ?_⟩
  · simp only [List.drop_succ_cons, List.drop_zero]
    apply List.pairwise_of_forall_mem_list
    intro a ha b hb
    have hka : sortKey a = 0 := by
      rcases List.mem_append.mp ha with h | h <;>
        · obtain ⟨s', -, rfl⟩ := List.mem_map.mp h
          rfl
    have hkb : sortKey b = 0 := by
      rcases List.mem_append.mp hb with h | h <;>
        · obtain ⟨s', -, rfl⟩ := List.mem_map.mp h
          rfl
    rw [hka, hkb]
  · simp only [List.map_cons, List.nodup_cons, hmapw]
    have hdivne : dividerWid ≠ selfSub.wid := by
      intro he
      exact hdivw (he ▸ List.mem_append_right _ (List.mem_cons_self _ _))
    have hdivmem : dividerWid ∉ pre.map SubChan.wid ++ post.map SubChan.wid := by
      intro hmem
      rcases List.mem_append.mp hmem with h | h
      · exact hdivw (List.mem_append_left _ h)
      · exact hdivw (List.mem_append_right _ (List.mem_cons_of_mem _ h))
    refine ⟨?_, hdivmem, h2.2⟩
    intro hmem
    rcases List.mem_cons.mp hmem with h | h
    · exact hdivne h.symm
    · exact h2.1 h

/-- C2: every registry reachable by post and retract events from a
successful well-formed load keeps the ordering invariant — the self
channel at position 0, the divider at position 1, the tail sorted by
`most_recent_activity` descending — and the resort that maintains it is
stable: any two tail entries ordered consistently with the sort (in
particular any two with equal timestamps, in their prior order) keep
their relative order through every successful `sort_channels`. -/
theorem C2_ordering_invariant {cl0 init cl : ChannelsList}
    {boundjid : String} {pre post : List SubChan} {selfSub : SubChan}
    {dividerWid : Nat}
    (hselfok : selfSub.constructOk = true)
    (hpreok : ∀ s ∈ pre, s.constructOk = true)
    (hpostok : ∀ s ∈ post, s.constructOk = true)
    (hselfjid : selfSub.jid = boundjid)
    (hpre : ∀ s ∈ pre, s.jid ≠ boundjid)
    (hpost : ∀ s ∈ post, s.jid ≠ boundjid)
    (hfresh : cl0.active_channel ≠ some selfSub.wid)
    (hnodup : ((pre ++ selfSub :: post).map SubChan.wid).Nodup)
    (hdivw : dividerWid ∉ (pre ++ selfSub :: post).map SubChan.wid)
    (hload : load_channels cl0 boundjid true true (pre ++ selfSub :: post)
        dividerWid = Except.ok init)
    (hreach : Reachable init cl) :
    (∃ b, cl.channels[0]? = some ⟨selfSub.wid, WContent.chan b⟩ ∧
        b.jid = boundjid) ∧
    cl.channels[1]? = some ⟨dividerWid, WContent.divider⟩ ∧
    (cl.channels.drop 2).Pairwise (fun a b => sortKey b ≤ sortKey a) ∧
    (∀ cl1 cl2 : ChannelsList, sort_channels cl1 = some cl2 →
      ∀ v w : Widget, List.Sublist [v, w] (cl1.channels.drop 2) →
        sortKey w ≤ sortKey v →
        List.Sublist [v, w] (cl2.channels.drop 2)) := by
  have hinit := load_regInv hselfok hpreok hpostok hselfjid hpre hpost
    hfresh hnodup hdivw hload
  have hinv : RegInv selfSub.wid dividerWid boundjid cl := by
    induction hreach with
    | refl => exact hinit
    | step e hr h ih => exact applyEvent_regInv ih h
  refine ⟨hinv.head_self, hinv.div_snd, hinv.tail_sorted, ?_⟩
  intro cl1 cl2 hsort v w hvw hle
  cases hfoc : cl1.channels[cl1.focus]? with
  | none =>
    unfold sort_channels at hsort
    rw [hfoc] at hsort
    cases hsort
  | some fw =>
    obtain ⟨cl'', hs, hform, -⟩ := sort_channels_spec hfoc
    rw [hsort] at hs
    obtain rfl := Option.some.inj hs
    have hst := List.pair_sublist_mergeSort
      (fun a b c => chanLE_trans a b c) (fun a b => chanLE_total a b)
      (show chanLE v w = true by simpa [chanLE] using hle) hvw
    match hshape : cl1.channels with
    | [] =>
      rw [hshape] at hvw
      simp at hvw
    | [x] =>
      rw [hshape] at hvw
      simp at hvw
    | x :: y :: rest =>
      rw [hform, hshape]
      rw [hshape] at hst
      simpa using hst

/-- The registry produced by a successful load of a bob channel followed
by the self channel from an empty start. -/
def loadedList : ChannelsList :=
  { channels :=
      [⟨1, WContent.chan (set_active (mkChannelBoxState "me@host") true)⟩,
       ⟨9, WContent.divider⟩,
       ⟨2, WContent.chan (mkChannelBoxState "bob@host")⟩],
    focus := 0, active_channel := some 1,
    statusLog := ["Displaying channel me@host..."] }

/-- Closed instance of C2: the concrete loaded registry satisfies the
ordering invariant. -/
theorem C2_ordering_invariant_witness :
    (∃ b, loadedList.channels[0]? = some ⟨1, WContent.chan b⟩ ∧
        b.jid = "me@host") ∧
    loadedList.channels[1]? = some ⟨9, WContent.divider⟩ ∧
    (loadedList.channels.drop 2).Pairwise
      (fun a b => sortKey b ≤ sortKey a) ∧
    (∀ cl1 cl2 : ChannelsList, sort_channels cl1 = some cl2 →
      ∀ v w : Widget, List.Sublist [v, w] (cl1.channels.drop 2) →
        sortKey w ≤ sortKey v →
        List.Sublist [v, w] (cl2.channels.drop 2)) :=
  @C2_ordering_invariant emptyChannelsList loadedList loadedList "me@host"
    [⟨"bob@host", 2, true⟩] [] ⟨"me@host", 1, true⟩ 9
    rfl (by decide) (by simp) rfl (by decide) (by simp) (by decide)
    (by decide) (by decide) rfl Reachable.refl

/-! ### Error behaviour of load and reset -/

theorem foldlM_loadStep_fail {boundjid : String} (subs : List SubChan)
    (acc : ChannelsList) {s : SubChan} (hs : s ∈ subs)
    (hbad : s.constructOk = false) :
    ∃ st, subs.foldlM (loadStep boundjid) acc = Except.error st := by
  induction subs generalizing acc with
  | nil => cases hs
  | cons x xs ih =>
    rw [List.foldlM_cons]
    by_cases hx : x.constructOk = false
    · refine ⟨acc, ?_⟩
      unfold loadStep
      rw [if_pos hx]
      rfl
    · have hxok : x.constructOk = true := by
        cases hcase : x.constructOk
        · exact absurd hcase hx
        · rfl
      have hsx : s ∈ xs := by
        rcases List.mem_cons.mp hs with rfl | h
        · rw [hxok] at hbad; cases hbad
        · exact h
      unfold loadStep
      rw [if_neg (by simp [hxok])]
      dsimp only
      by_cases hj : x.jid = boundjid
      · rw [if_pos hj]
        obtain ⟨st, hst⟩ := ih _ hsx
        exact ⟨st, hst⟩
      · rw [if_neg hj]
        obtain ⟨st, hst⟩ := ih _ hsx
        exact ⟨st, hst⟩

/-- C4 (amended): `load_channels` does not catch ChannelError.  A failure
of the own-channel fetch or of the subscription fetch propagates before
the list is cleared, leaving the registry in its previous consistent
state; a failure of any per-channel construction also propagates, leaving
behind whatever partially rebuilt list existed at that moment. -/
theorem C4_load_error_propagates (cl : ChannelsList) (boundjid : String)
    (subs : List SubChan) (dividerWid : Nat) :
    (∀ subsOk, load_channels cl boundjid false subsOk subs dividerWid
        = Except.error cl) ∧
    (load_channels cl boundjid true false subs dividerWid
        = Except.error cl) ∧
    (∀ s ∈ subs, s.constructOk = false →
      ∃ st, load_channels cl boundjid true true subs dividerWid
          = Except.error st) := by
  refine ⟨?_, ?_, ?_⟩
  · intro subsOk
    unfold load_channels
    rw [if_pos rfl]
  · unfold load_channels
    rw [if_neg (by simp), if_pos rfl]
  · intro s hs hbad
    obtain ⟨st, hst⟩ := foldlM_loadStep_fail subs
      { cl with channels := [], focus := 0 } hs hbad
    refine ⟨st, ?_⟩
    unfold load_channels
    rw [if_neg (by simp), if_neg (by simp)]
    rw [hst]

/-- C4 counterexample: a concrete load in which the second channel
construction signals ChannelError.  The error propagates out of
`load_channels` (the method has no try/except), and the registry list it
leaves behind is the cleared, partially refilled list holding just the
first channel — neither empty nor the previous consistent list, and
without a divider.  This falsifies the claim that load catches the error
and that no partial list is observable. -/
theorem C4_load_error_counterexample :
    load_channels threeRowList "me@host" true true
        [⟨"bob2@host", 12, true⟩, ⟨"carol@host", 13, false⟩] 99
      = Except.error
          { channels := [mkChannelBox ⟨"bob2@host", 12, true⟩],
            focus := 0, active_channel := threeRowList.active_channel,
            statusLog := threeRowList.statusLog } := rfl

/-- Closed instance of the amended C4: a failing own-channel fetch leaves
the concrete registry unchanged, and a failing construction yields a
propagated error. -/
theorem C4_load_error_propagates_witness :
    load_channels threeRowList "me@host" false true [] 99
      = Except.error threeRowList ∧
    ∃ st, load_channels threeRowList "me@host" true true
        [⟨"carol@host", 13, false⟩] 99 = Except.error st :=
  ⟨(C4_load_error_propagates threeRowList "me@host" [] 99).1 true,
   (C4_load_error_propagates threeRowList "me@host"
      [⟨"carol@host", 13, false⟩] 99).2.2
     ⟨"carol@host", 13, false⟩ (by simp) rfl⟩

/-- C6 (amended): with an active channel present in the list, `reset` on
fetch failure (the caught ChannelError) returns with the registry state
identical — list length, order, entry identities, active flags and the
status log all unchanged, and in particular no warning is pushed to the
status collaborator, whose display the source leaves as a TODO.  On fetch
success, if the ChannelBox construction also succeeds, it replaces the
old ChannelState at its existing position with the brand-new one and
activates it: the result is `make_active` of the in-place replacement,
the list length is preserved, and the widget at the same position is the
fresh box, now active with empty unread set.  A ChannelError raised by
the ChannelBox construction itself — which sits outside the try block —
escapes uncaught, before any replacement or activation. -/
theorem C6_reset_semantics {cl : ChannelsList} {wid : Nat} {idx : Nat}
    (ha : cl.active_channel = some wid)
    (hidx : idxOfWid cl.channels wid = some idx)
    (hlt : idx < cl.channels.length)
    (s : SubChan) (hok : s.constructOk = true) (hneq : s.wid ≠ wid) :
    reset cl none = some cl ∧
    reset cl (some s)
      = some (make_active
          { cl with channels := cl.channels.set idx (mkChannelBox s) }
          s.wid) ∧
    (∃ cl', reset cl (some s) = some cl' ∧
      cl'.channels.length = cl.channels.length ∧
      ∃ b, cl'.channels[idx]? = some ⟨s.wid, WContent.chan b⟩ ∧
        b.active = true ∧ b.unread_ids = ∅) ∧
    (∀ s' : SubChan, s'.constructOk = false →
      reset cl (some s') = none) := by
  have h1 : reset cl none = some cl := by
    unfold reset
    rw [ha]
    dsimp only
    rw [hidx]
  have h2 : reset cl (some s)
      = some (make_active
          { cl with channels := cl.channels.set idx (mkChannelBox s) }
          s.wid) := by
    unfold reset
    rw [ha]
    dsimp only
    rw [hidx]
    dsimp only
    rw [if_neg (by simp [hok])]
  have h4 : ∀ s' : SubChan, s'.constructOk = false →
      reset cl (some s') = none := by
    intro s' hbad
    unfold reset
    rw [ha]
    dsimp only
    rw [hidx]
    dsimp only
    rw [if_pos hbad]
  refine ⟨h1, h2, ?_, h4⟩
  refine ⟨_, h2, ?_, ?_⟩
  · have hw := make_active_wids
      { cl with channels := cl.channels.set idx (mkChannelBox s) } s.wid
    have hlen := congrArg List.length hw
    simpa using hlen
  · unfold make_active
    have hne' : ({ cl with channels := cl.channels.set idx (mkChannelBox s) }
        : ChannelsList).active_channel ≠ some s.wid := by
      dsimp only
      rw [ha]
      intro he
      exact hneq (Option.some.inj he).symm
    rw [if_neg hne']
    dsimp only
    have hset : (cl.channels.set idx (mkChannelBox s))[idx]?
        = some (mkChannelBox s) :=
      List.getElem?_set_self (by simpa using hlt)
    rw [List.getElem?_map, hset]
    refine ⟨set_active (mkChannelBoxState s.jid) true, ?_, by simp [set_active],
      by simp [set_active]⟩
    simp [mkChannelBox]

/-- C6 counterexample: on the concrete registry, `reset` under a fetch
failure returns the state unchanged — including the status log, so no
recoverable warning is reported through the status collaborator (the
source marks the warning as a TODO), contrary to the claim. -/
theorem C6_reset_counterexample :
    reset threeRowList none = some threeRowList ∧
    (reset threeRowList none).map ChannelsList.statusLog
      = some threeRowList.statusLog :=
  ⟨rfl, rfl⟩

/-- Closed instance of the amended C6 on the concrete registry: reset
leaves the state untouched on fetch failure, replaces and activates at
the same position on full success, and an uncaught construction failure
escapes. -/
theorem C6_reset_semantics_witness :
    reset threeRowList none = some threeRowList ∧
    (∃ cl', reset threeRowList (some ⟨"me@host", 14, true⟩) = some cl' ∧
      cl'.channels.length = threeRowList.channels.length ∧
      ∃ b, cl'.channels[0]? = some ⟨14, WContent.chan b⟩ ∧
        b.active = true ∧ b.unread_ids = ∅) ∧
    reset threeRowList (some ⟨"me@host", 15, false⟩) = none :=
  ⟨(@C6_reset_semantics threeRowList 1 0 rfl (by decide) (by decide)
      ⟨"me@host", 14, true⟩ rfl (by decide)).1,
   (@C6_reset_semantics threeRowList 1 0 rfl (by decide) (by decide)
      ⟨"me@host", 14, true⟩ rfl (by decide)).2.2.1,
   (@C6_reset_semantics threeRowList 1 0 rfl (by decide) (by decide)
      ⟨"me@host", 14, true⟩ rfl (by decide)).2.2.2
     ⟨"me@host", 15, false⟩ rfl⟩

end Sidebar
